import Mathlib

/-!
A verification development for the chat2imap reconciliation engine
(`chat2imap.py`).  The Python source is shallowly embedded: the identity
derivation (`LogDir.get_from_email`), the skip-list filtering
(`Configuration.syncable_*`), the filename-timestamp derivation
(`LogFile.get_timestamp`), the remote-inventory construction
(`IMAPServer.get_existing_message_ids`) and the reconciliation main loop
(`__main__`) become executable Lean definitions, and the specification's
claims are settled as theorems about those definitions.
-/

namespace Chat2Imap

/-- Python truthiness of an optional string: `None` and the empty string
are falsy, any non-empty string is truthy. -/
def truthyOS : Option String → Bool
  | none => false
  | some s => !(s == "")

/-! ## Address synthesis (`LogDir.get_from_email`) -/

/-- Value of a hexadecimal digit, as accepted inside a `%XX` escape by
`urllib.parse.unquote`. -/
def hexVal (c : Char) : Option Nat :=
  if '0' ≤ c ∧ c ≤ '9' then some (c.toNat - '0'.toNat)
  else if 'a' ≤ c ∧ c ≤ 'f' then some (c.toNat - 'a'.toNat + 10)
  else if 'A' ≤ c ∧ c ≤ 'F' then some (c.toNat - 'A'.toNat + 10)
  else none

/-- Percent-decoding of `urllib.parse.unquote`, modelled for single-byte
(ASCII) escape sequences: `%XX` with two hex digits becomes the character
with that code point, and anything that is not a well-formed escape is
copied through unchanged (as `unquote` does). -/
def unquoteChars : List Char → List Char
  | [] => []
  | '%' :: c1 :: c2 :: rest =>
    match hexVal c1, hexVal c2 with
    | some h1, some h2 => Char.ofNat (16 * h1 + h2) :: unquoteChars rest
    | _, _ => '%' :: unquoteChars (c1 :: c2 :: rest)
  | c :: rest => c :: unquoteChars rest

/-- `urllib.parse.unquote` on a whole string (single-byte model). -/
def unquote (s : String) : String := String.mk (unquoteChars s.data)

/-- `str.replace` for a single-character pattern and replacement. -/
def replaceChar (c r : Char) (s : String) : String :=
  String.mk (s.data.map (fun x => if x = c then r else x))

/-- `str.replace(c, '')` for a single-character pattern: drop every
occurrence. -/
def removeChar (c : Char) (s : String) : String :=
  String.mk (s.data.filter (fun x => x != c))

/-- `LogDir.get_from_email`: coerce the contact name into an email-like
address.  The contact is URL-decoded and spaces are replaced with
underscores, then the protocol-specific rule is applied
(chat2imap.py, lines 46-65). -/
def get_from_email (protocol contact : String) : String :=
  let c := replaceChar ' ' '_' (unquote contact)
  if protocol = "aim" then c ++ "@aol.com"
  else if protocol = "facebook" then c ++ "@facebook.com"
  else if protocol = "irc" then (removeChar '#' c) ++ "@irc"
  else if protocol = "jabber" ∨ protocol = "gtalk" then c
  else if protocol = "msn" then (if c.contains '@' then c else c ++ "@hotmail.com")
  else if protocol = "yahoo" then c ++ "@yahoo.com"
  else c ++ "@" ++ protocol

/-- The address-synthesis table exactly as the specification words it
(spec §4.1): URL-decode the contact and replace spaces by underscores,
then dispatch on the protocol enumeration, with `contact@protocol` as the
fallback for unlisted protocols. -/
def deriveFromAddressSpec (protocol contact : String) : String :=
  let c := replaceChar ' ' '_' (unquote contact)
  match protocol with
  | "aim" => c ++ "@aol.com"
  | "facebook" => c ++ "@facebook.com"
  | "irc" => (removeChar '#' c) ++ "@irc"
  | "jabber" => c
  | "gtalk" => c
  | "msn" => if c.contains '@' then c else c ++ "@hotmail.com"
  | "yahoo" => c ++ "@yahoo.com"
  | _ => c ++ "@" ++ protocol

/-! ## Skip-list filtering (`Configuration`) -/

/-- `Configuration.known_chat_types`: the fixed protocol enumeration set in
`Configuration.__init__`. -/
def known_chat_types : List String :=
  ["aim", "facebook", "irc", "jabber", "msn", "yahoo", "gtalk"]

/-- The configured skip sets (the only configuration state the
eligibility checks consult). -/
structure Configuration where
  accounts_to_skip : List String
  contacts_to_skip : List String
deriving DecidableEq

/-- `Configuration.qualified_account_name`: `protocol:account`. -/
def qualified_account_name (protocol account : String) : String :=
  protocol ++ ":" ++ account

/-- `Configuration.qualified_contact_name`: `protocol:account:contact`. -/
def qualified_contact_name (protocol account contact : String) : String :=
  String.intercalate ":" [protocol, account, contact]

/-- `Configuration.syncable_protocol`: the protocol is in the fixed
enumeration. -/
def syncable_protocol (protocol : String) : Bool :=
  known_chat_types.contains protocol

/-- `Configuration.syncable_account`: the protocol is syncable and the
qualified account name is not in the account skip set. -/
def syncable_account (cfg : Configuration) (protocol account : String) : Bool :=
  syncable_protocol protocol &&
    !cfg.accounts_to_skip.contains (qualified_account_name protocol account)

/-- `Configuration.syncable_contact`: the account is syncable and the
qualified contact name is not in the contact skip set. -/
def syncable_contact (cfg : Configuration) (protocol account contact : String) : Bool :=
  syncable_account cfg protocol account &&
    !cfg.contacts_to_skip.contains (qualified_contact_name protocol account contact)

/-! ## Filename-timestamp derivation (`LogFile.get_timestamp`)

`datetime.strptime` is modelled for the three format strings the source
uses.  A parser is a function from the remaining character list to the
list of possible matches in regex priority order (CPython's `_strptime`
compiles each directive to a regex alternation); a whole-string parse
succeeds when the highest-priority result that consumes the entire input
exists, mirroring `strptime`'s anchored match. -/

/-- Nondeterministic character parser: all matches in priority order. -/
def P (α : Type) : Type := List Char → List (α × List Char)

instance : Monad P where
  pure a := fun s => [(a, s)]
  bind p f := fun s => (p s).flatMap (fun r => f r.1 r.2)

/-- The always-failing parser (an empty regex alternation). -/
def pfailP {α : Type} : P α := fun _ => []

/-- Ordered alternation, the left branch having regex priority. -/
def palt {α : Type} (p q : P α) : P α := fun s => p s ++ q s

/-- Match one fixed character. -/
def pch (c : Char) : P Unit := fun s =>
  match s with
  | c' :: rest => if c' = c then [((), rest)] else []
  | [] => []

/-- Match one decimal digit, yielding its value. -/
def pdigit : P Nat := fun s =>
  match s with
  | c :: rest => if c.isDigit then [(c.toNat - '0'.toNat, rest)] else []
  | [] => []

/-- Match one decimal digit constrained to `[lo, hi]`. -/
def pdigitRange (lo hi : Nat) : P Nat := do
  let d ← pdigit
  if lo ≤ d ∧ d ≤ hi then pure d else pfailP

/-- Two digits, the first in `[loA, hiA]` and the second in `[loB, hiB]`. -/
def pTwo (loA hiA loB hiB : Nat) : P Nat := do
  let a ← pdigitRange loA hiA
  let b ← pdigitRange loB hiB
  pure (a * 10 + b)

/-- `%Y`: exactly four digits. -/
def pYear : P Nat := do
  let a ← pdigit
  let b ← pdigit
  let c ← pdigit
  let d ← pdigit
  pure (a * 1000 + b * 100 + c * 10 + d)

/-- `%m`: `1[0-2]|0[1-9]|[1-9]`. -/
def pMonth : P Nat :=
  palt (pTwo 1 1 0 2) (palt (pTwo 0 0 1 9) (pdigitRange 1 9))

/-- `%d`: `3[01]|[12]\d|0[1-9]|[1-9]`. -/
def pDay : P Nat :=
  palt (pTwo 3 3 0 1) (palt (pTwo 1 2 0 9) (palt (pTwo 0 0 1 9) (pdigitRange 1 9)))

/-- `%H`: `2[0-3]|[0-1]\d|\d`. -/
def pHour : P Nat :=
  palt (pTwo 2 2 0 3) (palt (pTwo 0 1 0 9) pdigit)

/-- `%M`: `[0-5]\d|\d`. -/
def pMin : P Nat :=
  palt (pTwo 0 5 0 9) pdigit

/-- `%S`: `6[0-1]|[0-5]\d|\d`. -/
def pSec : P Nat :=
  palt (pTwo 6 6 0 1) (palt (pTwo 0 5 0 9) pdigit)

/-- An optional fixed character (regex `c?`, preferring the match). -/
def pOptCh (c : Char) : P Unit := palt (pch c) (pure ())

/-- `%z`, modelled for the offset forms the logs use:
`[+-]\d\d:?[0-5]\d` or a literal `Z`; the offset (in minutes east of UTC)
must stay strictly below 24 hours or `strptime` raises, which the source
observes as a parse failure. -/
def pTzOffset : P Int :=
  palt
    (do
      let sg ← palt (do pch '+'; pure (1 : Int)) (do pch '-'; pure (-1 : Int))
      let h1 ← pdigit
      let h2 ← pdigit
      pOptCh ':'
      let m ← pTwo 0 5 0 9
      let h := h1 * 10 + h2
      if h ≤ 23 then pure (sg * (h * 60 + m)) else pfailP)
    (do pch 'Z'; pure (0 : Int))

/-- A timezone-aware or naive point in time; `tzOffset` is the UTC offset
in minutes, `none` for a naive value. -/
structure DateTime where
  year : Nat
  month : Nat
  day : Nat
  hour : Nat
  minute : Nat
  second : Nat
  tzOffset : Option Int
deriving DecidableEq

/-- Days in a month (`datetime`'s calendar, proleptic Gregorian). -/
def daysInMonth (y m : Nat) : Nat :=
  if m = 2 then
    if y % 4 = 0 ∧ (y % 100 ≠ 0 ∨ y % 400 = 0) then 29 else 28
  else if m = 4 ∨ m = 6 ∨ m = 9 ∨ m = 11 then 30
  else 31

/-- The validation the `datetime` constructor performs after the regex
match: positive year, day within the month, second at most 59. -/
def mkDateTime (y mo d h mi s : Nat) (tz : Option Int) : Option DateTime :=
  if 1 ≤ y ∧ 1 ≤ d ∧ d ≤ daysInMonth y mo ∧ s ≤ 59 then
    some ⟨y, mo, d, h, mi, s, tz⟩
  else none

/-- Lift an `Option` into the parser. -/
def pOfOption {α : Type} : Option α → P α
  | some a => pure a
  | none => pfailP

/-- Run a format parser the way `strptime` does: take the
highest-priority result that consumed the whole input. -/
def runFormat (p : P DateTime) (s : String) : Option DateTime :=
  match (p s.data).filter (fun r => r.2 = []) with
  | [] => none
  | r :: _ => some r.1

/-- `strptime` with format `'(%Y-%m-%dT%H.%M.%S%z)'`. -/
def parseBracketed (s : String) : Option DateTime :=
  runFormat
    (do
      pch '('
      let y ← pYear
      pch '-'
      let mo ← pMonth
      pch '-'
      let d ← pDay
      pch 'T'
      let h ← pHour
      pch '.'
      let mi ← pMin
      pch '.'
      let se ← pSec
      let z ← pTzOffset
      pch ')'
      pOfOption (mkDateTime y mo d h mi se (some z)))
    s

/-- `strptime` with format `'%Y-%m-%d.%H%M%S%z'`. -/
def parseOffset (s : String) : Option DateTime :=
  runFormat
    (do
      let y ← pYear
      pch '-'
      let mo ← pMonth
      pch '-'
      let d ← pDay
      pch '.'
      let h ← pHour
      let mi ← pMin
      let se ← pSec
      let z ← pTzOffset
      pOfOption (mkDateTime y mo d h mi se (some z)))
    s

/-- `strptime` with format `'%Y-%m-%d.%H%M%S'` (naive result). -/
def parseNaive (s : String) : Option DateTime :=
  runFormat
    (do
      let y ← pYear
      pch '-'
      let mo ← pMonth
      pch '-'
      let d ← pDay
      pch '.'
      let h ← pHour
      let mi ← pMin
      let se ← pSec
      pOfOption (mkDateTime y mo d h mi se none))
    s

/-- `re.sub('[A-Z]{2}T$', '', s)`: strip a trailing two-uppercase-letters
plus `T` timezone abbreviation. -/
def stripTzAbbrev (s : String) : String :=
  match s.data.reverse with
  | 'T' :: b :: a :: rest =>
    if a.isUpper ∧ b.isUpper then String.mk (('T' :: b :: a :: rest).drop 3).reverse
    else s
  | _ => s

/-- Python's `str.split(' ')`: split on every single space, keeping
empty fields, so the result is never empty. -/
def splitSpaces : List Char → List (List Char)
  | [] => [[]]
  | c :: rest =>
    if c = ' ' then [] :: splitSpaces rest
    else
      match splitSpaces rest with
      | h :: t => (c :: h) :: t
      | [] => [[c]]

/-- `root_name.split(' ')[-1]`: the last space-separated field. -/
def lastToken (s : String) : String :=
  String.mk ((splitSpaces s.data).getLastD [])

/-- `pytz`'s `localize` on a naive time, the local zone abstracted as its
UTC offset in minutes for the instant in question. -/
def localize (tz : Int) (d : DateTime) : DateTime :=
  { d with tzOffset := some tz }

/-- The failure `LogFile.get_timestamp` propagates: the parse error is
reported on stderr together with the file path and then re-raised. -/
inductive TsErr
  | parseFailure (file_name : String)
deriving DecidableEq

/-- `LogFile.get_timestamp` (chat2imap.py, lines 96-120): for `.xml`
files the last space-separated field of the stem must parse as the
bracketed timezone-qualified form; for every other extension the stem,
with a trailing timezone abbreviation stripped, is parsed with the
offset form, falling back to the naive form localized to the configured
timezone; any remaining failure is reported with the file path and
re-raised. -/
def get_timestamp (root_name extension file_name : String) (localTz : Int) :
    Except TsErr DateTime :=
  if extension = ".xml" then
    match parseBracketed (lastToken root_name) with
    | some d => Except.ok d
    | none => Except.error (TsErr.parseFailure file_name)
  else
    let ts := stripTzAbbrev root_name
    match parseOffset ts with
    | some d => Except.ok d
    | none =>
      match parseNaive ts with
      | some d => Except.ok (localize localTz d)
      | none => Except.error (TsErr.parseFailure file_name)

/-! ## Remote inventory (`IMAPServer.get_existing_message_ids`) and the
reconciliation main loop (`__main__`) -/

/-- Python's `<` on strings: lexicographic comparison of code points,
a strict prefix comparing below its extension. -/
def charListLt : List Char → List Char → Bool
  | [], [] => false
  | [], _ :: _ => true
  | _ :: _, [] => false
  | a :: as, b :: bs =>
    if a < b then true
    else if b < a then false
    else charListLt as bs

/-- Python's `a < b` on strings. -/
def pyStrLt (a b : String) : Bool := charListLt a.data b.data

/-- Python's `a >= b` on strings (`not (a < b)`). -/
def pyStrGe (a b : String) : Bool := !pyStrLt a b

instance {ε α : Type} [DecidableEq ε] [DecidableEq α] :
    DecidableEq (Except ε α) := fun x y =>
  match x, y with
  | Except.ok a, Except.ok b =>
    if h : a = b then isTrue (by rw [h])
    else isFalse (by intro hc; cases hc; exact h rfl)
  | Except.ok _, Except.error _ => isFalse (by intro hc; cases hc)
  | Except.error _, Except.ok _ => isFalse (by intro hc; cases hc)
  | Except.error e, Except.error e' =>
    if h : e = e' then isTrue (by rw [h])
    else isFalse (by intro hc; cases hc; exact h rfl)

/-- A value stored in the inventory map: the scan stores the
`X-Source-File-ModifiedTime` header as a string; `IMAPServer.store`
records the message's datetime object (modelled opaquely as a `Nat`). -/
inductive MVal
  | str (s : String)
  | dt (t : Nat)
deriving DecidableEq

/-- An inventory entry: the remote handle (UID) when known, and the
stored modification-time value. -/
abbrev Entry := Option String × MVal

/-- The in-memory inventory (`IMAPServer.existing_message_ids`), a map
from Message-ID to entry, modelled as an association list with Python
dict lookup/assignment semantics. -/
abbrev Inv := List (String × Entry)

/-- Dict lookup. -/
def invGet : Inv → String → Option Entry
  | [], _ => none
  | (k', v) :: rest, k => if k = k' then some v else invGet rest k

/-- Dict assignment (overwrites any previous binding of the key). -/
def invSet (inv : Inv) (k : String) (v : Entry) : Inv :=
  (k, v) :: inv.filter (fun e => e.1 != k)

/-- The remote mutations the program can issue. -/
inductive RemoteOp
  | markDeleted (uid : String)
  | expunge
  | append (message_id : String)
deriving DecidableEq

/-- One fetched header record: the UID plus the optional `Message-ID` and
`X-Source-File-Modifiedtime` header values (`HeaderParser.get` yields
`None` for a missing header). -/
structure FetchedRecord where
  uid : String
  message_id : Option String
  mtime : Option String
deriving DecidableEq

/-- Processing of one fetched record inside
`IMAPServer.get_existing_message_ids`: a record without a truthy
modification time is deleted (mark-deleted plus expunge, via
`IMAPServer.delete`) and yields nothing; otherwise a record with a truthy
`Message-ID` is indexed as `(uid, mtime)`; anything else is ignored. -/
def inventoryStep (acc : Inv × List RemoteOp) (r : FetchedRecord) :
    Inv × List RemoteOp :=
  if truthyOS r.mtime = false then
    (acc.1, acc.2 ++ [RemoteOp.markDeleted r.uid, RemoteOp.expunge])
  else if truthyOS r.message_id then
    (invSet acc.1 (r.message_id.getD "") (some r.uid, MVal.str (r.mtime.getD "")), acc.2)
  else acc

/-- Left fold of `inventoryStep` over the fetched records. -/
def buildInventoryFrom (acc : Inv × List RemoteOp) :
    List FetchedRecord → Inv × List RemoteOp
  | [] => acc
  | r :: rest => buildInventoryFrom (inventoryStep acc r) rest

/-- The startup inventory pass: the dict comprehension over
`get_existing_message_ids`, together with the repair deletions it
issues. -/
def buildInventory (records : List FetchedRecord) : Inv × List RemoteOp :=
  buildInventoryFrom ([], []) records

/-- One local transcript descriptor as the main loop sees it:
`message_id`, the formatted file modification time, the filename-derived
timestamp (opaque) and the file path. -/
structure SyncFile where
  message_id : String
  file_mtime : String
  timestamp : Nat
  file_name : String
deriving DecidableEq

/-- How a run can abort: comparing a datetime inventory value against the
file-mtime string raises `TypeError`; a failing `IMAPServer.store` is
reported with the file path and re-raised. -/
inductive RunErr
  | typeError
  | storeFailed (file_name : String)
deriving DecidableEq

/-- `IMAPServer.store` as the main loop calls it, preceded by the delete
operations of the branch that reached it: the inventory is updated with
`(None, timestamp)` before the append is attempted; a failing append is
reported with the file path and re-raised. -/
def storeStep (inv : Inv) (f : SyncFile) (appendOk : Bool)
    (delOps : List RemoteOp) : Except RunErr (Inv × List RemoteOp) :=
  let inv' := invSet inv f.message_id (none, MVal.dt f.timestamp)
  if appendOk then Except.ok (inv', delOps ++ [RemoteOp.append f.message_id])
  else Except.error (RunErr.storeFailed f.file_name)

/-- One iteration of the reconciliation loop (chat2imap.py, lines
368-387): look the Message-ID up in the inventory (default
`[None, None]`); with a truthy UID and a truthy stored mtime at least the
file mtime the file is skipped; with a truthy UID otherwise the remote
message is deleted and the file re-stored; with a falsy UID the file is
stored. -/
def processFile (inv : Inv) (f : SyncFile) (appendOk : Bool) :
    Except RunErr (Inv × List RemoteOp) :=
  match invGet inv f.message_id with
  | some (some u, m) =>
    if u = "" then storeStep inv f appendOk []
    else
      match m with
      | MVal.str s =>
        if (!(s == "")) && pyStrGe s f.file_mtime then Except.ok (inv, [])
        else storeStep inv f appendOk [RemoteOp.markDeleted u, RemoteOp.expunge]
      | MVal.dt _ => Except.error RunErr.typeError
  | some (none, _) => storeStep inv f appendOk []
  | none => storeStep inv f appendOk []

/-- The reconciliation loop over all catalogued transcripts, threading
the inventory and concatenating the issued remote operations; an
exception terminates the run. -/
def runReconcile (inv : Inv) (files : List SyncFile)
    (appendOk : SyncFile → Bool) : Except RunErr (Inv × List RemoteOp) :=
  match files with
  | [] => Except.ok (inv, [])
  | f :: rest =>
    match processFile inv f (appendOk f) with
    | Except.error e => Except.error e
    | Except.ok (inv', ops) =>
      match runReconcile inv' rest appendOk with
      | Except.error e => Except.error e
      | Except.ok (inv'', ops') => Except.ok (inv'', ops ++ ops')

/-- The whole run: build the inventory (issuing its repair deletions),
perform the unconditional startup expunge, then reconcile every
transcript. -/
def mainRun (records : List FetchedRecord) (files : List SyncFile)
    (appendOk : SyncFile → Bool) : Except RunErr (Inv × List RemoteOp) :=
  let scanned := buildInventory records
  match runReconcile scanned.1 files appendOk with
  | Except.ok (inv', ops) => Except.ok (inv', scanned.2 ++ RemoteOp.expunge :: ops)
  | Except.error e => Except.error e

/-! ## Helper lemmas -/

theorem truthyOS_iff (o : Option String) :
    truthyOS o = true ↔ ∃ s, o = some s ∧ s ≠ "" := by
  cases o with
  | none => simp [truthyOS]
  | some s => simp [truthyOS]

theorem invGet_filter_ne (inv : Inv) (k k' : String) (h : k' ≠ k) :
    invGet (inv.filter (fun e => e.1 != k)) k' = invGet inv k' := by
  induction inv with
  | nil => rfl
  | cons e rest ih =>
    rcases e with ⟨a, b⟩
    by_cases hak : a = k
    · subst hak
      simp [List.filter_cons, invGet, h, ih]
    · by_cases hk : k' = a
      · subst hk
        simp [List.filter_cons, invGet, bne_iff_ne, hak]
      · simp [List.filter_cons, invGet, bne_iff_ne, hak, hk, ih]

theorem invGet_invSet (inv : Inv) (k k' : String) (v : Entry) :
    invGet (invSet inv k v) k' = if k' = k then some v else invGet inv k' := by
  by_cases h : k' = k
  · simp [invSet, invGet, h]
  · simp [invSet, invGet, h, invGet_filter_ne inv k k' h]

theorem mem_buildInventoryFrom_ops (rs : List FetchedRecord) :
    ∀ acc (o : RemoteOp), o ∈ acc.2 → o ∈ (buildInventoryFrom acc rs).2 := by
  induction rs with
  | nil => intro acc o h; exact h
  | cons r rest ih =>
    intro acc o h
    simp only [buildInventoryFrom]
    apply ih
    by_cases hm : truthyOS r.mtime = false
    · simp [inventoryStep, hm, List.mem_append, h]
    · by_cases hmi : truthyOS r.message_id <;> simp [inventoryStep, hm, hmi, h]

theorem markDeleted_mem_ops (rs : List FetchedRecord) :
    ∀ acc (r : FetchedRecord), r ∈ rs → truthyOS r.mtime = false →
      RemoteOp.markDeleted r.uid ∈ (buildInventoryFrom acc rs).2 := by
  induction rs with
  | nil => intro acc r h; cases h
  | cons r0 rest ih =>
    intro acc r hmem hm
    simp only [buildInventoryFrom]
    rcases List.mem_cons.mp hmem with h | h
    · subst h
      apply mem_buildInventoryFrom_ops
      simp [inventoryStep, hm, List.mem_append]
    · exact ih _ r h hm

theorem invGet_buildInventoryFrom (rs : List FetchedRecord) :
    ∀ acc (k : String) (v : Entry),
      invGet (buildInventoryFrom acc rs).1 k = some v →
      invGet acc.1 k = some v ∨
        ∃ r, r ∈ rs ∧ ∃ m, r.mtime = some m ∧ m ≠ "" ∧
          r.message_id = some k ∧ v = (some r.uid, MVal.str m) := by
  induction rs with
  | nil => intro acc k v h; exact Or.inl h
  | cons r0 rest ih =>
    intro acc k v h
    simp only [buildInventoryFrom] at h
    rcases ih _ k v h with h' | ⟨r, hr, hrest⟩
    · by_cases hm : truthyOS r0.mtime = false
      · left
        simpa [inventoryStep, hm] using h'
      · have hmt : truthyOS r0.mtime = true := by
          cases hb : truthyOS r0.mtime
          · exact absurd hb hm
          · rfl
        obtain ⟨m, hmeq, hmne⟩ := (truthyOS_iff _).mp hmt
        by_cases hmi : truthyOS r0.message_id = true
        · obtain ⟨mid, hmid, hmidne⟩ := (truthyOS_iff _).mp hmi
          rw [show inventoryStep acc r0 =
              (invSet acc.1 (r0.message_id.getD "")
                (some r0.uid, MVal.str (r0.mtime.getD "")), acc.2) from by
            simp [inventoryStep, hm, hmi]] at h'
          rw [invGet_invSet] at h'
          by_cases hk : k = r0.message_id.getD ""
          · right
            refine ⟨r0, List.mem_cons_self _ _, m, hmeq, hmne, ?_, ?_⟩
            · rw [hmid, Option.getD_some] at hk
              rw [hmid, hk]
            · rw [if_pos hk] at h'
              rw [hmeq, Option.getD_some] at h'
              exact (Option.some_injective _ h').symm
          · left
            rw [if_neg hk] at h'
            exact h'
        · left
          simpa [inventoryStep, hm, hmi] using h'
    · exact Or.inr ⟨r, List.mem_cons_of_mem _ hr, hrest⟩

theorem buildInventoryFrom_append (l1 l2 : List FetchedRecord) :
    ∀ acc, buildInventoryFrom acc (l1 ++ l2) =
      buildInventoryFrom (buildInventoryFrom acc l1) l2 := by
  induction l1 with
  | nil => intro acc; rfl
  | cons r rest ih =>
    intro acc
    simp only [List.cons_append, buildInventoryFrom]
    exact ih _

/-! ## Claim theorems -/

/-- Claim C8: address synthesis is a pure total function of
`(protocol, contact)`: the contact is URL-decoded with spaces replaced by
underscores and then the protocol table of the specification is applied;
the same pair always yields the same address (the embedding is a
function), `aim`/`bobsmith` yields `bobsmith@aol.com`, and the decoding
happens before the space replacement. -/
theorem address_synthesis :
    (∀ protocol contact,
        get_from_email protocol contact = deriveFromAddressSpec protocol contact) ∧
    get_from_email "aim" "bobsmith" = "bobsmith@aol.com" ∧
    get_from_email "aim" "bob%20smith" = "bob_smith@aol.com" := by
  refine ⟨fun p c => ?_, by decide, by decide⟩
  by_cases h1 : p = "aim"
  · subst h1; rfl
  by_cases h2 : p = "facebook"
  · subst h2; rfl
  by_cases h3 : p = "irc"
  · subst h3; rfl
  by_cases h4 : p = "jabber"
  · subst h4; rfl
  by_cases h5 : p = "gtalk"
  · subst h5; rfl
  by_cases h6 : p = "msn"
  · subst h6; rfl
  by_cases h7 : p = "yahoo"
  · subst h7; rfl
  have h45 : ¬(p = "jabber" ∨ p = "gtalk") := by
    intro h
    rcases h with h | h
    · exact h4 h
    · exact h5 h
  simp only [get_from_email, deriveFromAddressSpec, if_neg h1, if_neg h2,
    if_neg h3, if_neg h45, if_neg h6, if_neg h7]

/-- Claim C9: eligibility is evaluated protocol first, then qualified
account, then qualified contact: an unrecognized protocol or a skipped
qualified account excludes every contact beneath it, whatever the contact
skip set contains. -/
theorem skip_list_precedence (cfg : Configuration)
    (protocol account contact : String)
    (h : syncable_protocol protocol = false ∨
      cfg.accounts_to_skip.contains (qualified_account_name protocol account) = true) :
    syncable_contact cfg protocol account contact = false := by
  rcases h with h | h
  · simp [syncable_contact, syncable_account, h]
  · have h' : qualified_account_name protocol account ∈ cfg.accounts_to_skip := by
      simpa using h
    simp [syncable_contact, syncable_account, h']

/-- Witness for C9: under skip set `{aim:work}` the contact `alice` is
excluded although no contact skip entry mentions it, and an unrecognized
protocol `icq` is excluded with empty skip sets. -/
theorem skip_list_precedence_witness :
    syncable_contact ⟨["aim:work"], []⟩ "aim" "work" "alice" = false ∧
    syncable_contact ⟨[], []⟩ "icq" "me" "bob" = false :=
  ⟨skip_list_precedence ⟨["aim:work"], []⟩ "aim" "work" "alice" (Or.inr (by decide)),
   skip_list_precedence ⟨[], []⟩ "icq" "me" "bob" (Or.inl (by decide))⟩

/-- Claim C10 (implicit): a fetched record with a truthy modification
time but no `Message-ID` header is silently ignored by the inventory
pass: the processing step leaves both the inventory and the operation
list unchanged, so the record is neither deleted nor indexed and never
takes part in a later decision. -/
theorem missing_message_id_ignored (acc : Inv × List RemoteOp)
    (r : FetchedRecord) (hm : truthyOS r.mtime = true)
    (hid : r.message_id = none) :
    inventoryStep acc r = acc ∧
    ∀ pre post, buildInventory (pre ++ r :: post) = buildInventory (pre ++ post) := by
  have hstep : ∀ a : Inv × List RemoteOp, inventoryStep a r = a := by
    intro a
    simp only [inventoryStep, hm, hid]
    simp [truthyOS]
  refine ⟨hstep acc, fun pre post => ?_⟩
  unfold buildInventory
  rw [buildInventoryFrom_append, buildInventoryFrom_append]
  simp only [buildInventoryFrom, hstep]

/-- Witness for C10: a concrete record with a modification time but no
Message-ID leaves a concrete accumulator untouched and drops out of a
concrete record list. -/
theorem missing_message_id_ignored_witness :
    inventoryStep ([("k", (some "1", MVal.str "T"))], [RemoteOp.expunge])
        ⟨"2", none, some "T2"⟩ =
      ([("k", (some "1", MVal.str "T"))], [RemoteOp.expunge]) ∧
    buildInventory [⟨"1", some "k", some "T"⟩, ⟨"2", none, some "T2"⟩] =
      buildInventory [⟨"1", some "k", some "T"⟩] := by
  have h := missing_message_id_ignored
    ([("k", (some "1", MVal.str "T"))], [RemoteOp.expunge])
    ⟨"2", none, some "T2"⟩ (by decide) rfl
  refine ⟨h.1, ?_⟩
  have h2 := h.2 [⟨"1", some "k", some "T"⟩] []
  simpa using h2

/-- Claim C4: during the startup inventory pass every fetched record
without a truthy modification-time header is deleted (its mark-deleted
operation is issued) and contributes nothing to the inventory: every
entry of the final inventory map originates from a record carrying a
non-empty modification time, hence carries a stored modification time
and a handle. -/
theorem inventory_self_repair (records : List FetchedRecord) :
    (∀ r ∈ records, truthyOS r.mtime = false →
        RemoteOp.markDeleted r.uid ∈ (buildInventory records).2) ∧
    (∀ k v, invGet (buildInventory records).1 k = some v →
        ∃ r, r ∈ records ∧ ∃ m, r.mtime = some m ∧ m ≠ "" ∧
          r.message_id = some k ∧ v = (some r.uid, MVal.str m)) := by
  constructor
  · intro r hr hm
    exact markDeleted_mem_ops records ([], []) r hr hm
  · intro k v h
    rcases invGet_buildInventoryFrom records ([], []) k v h with h' | h'
    · cases h'
    · exact h'

/-- Witness for C4: in a concrete scan, the record without a
modification time is deleted, and the surviving inventory entry is traced
back to the well-formed record. -/
theorem inventory_self_repair_witness :
    RemoteOp.markDeleted "3" ∈
      (buildInventory [⟨"3", some "legacy", none⟩, ⟨"5", some "mid2", some "T2"⟩]).2 ∧
    ∃ r, r ∈ [(⟨"3", some "legacy", none⟩ : FetchedRecord), ⟨"5", some "mid2", some "T2"⟩] ∧
      ∃ m, r.mtime = some m ∧ m ≠ "" ∧ r.message_id = some "mid2" ∧
        ((some "5", MVal.str "T2") : Entry) = (some r.uid, MVal.str m) :=
  ⟨(inventory_self_repair [⟨"3", some "legacy", none⟩, ⟨"5", some "mid2", some "T2"⟩]).1
      ⟨"3", some "legacy", none⟩ (by decide) (by decide),
   (inventory_self_repair [⟨"3", some "legacy", none⟩, ⟨"5", some "mid2", some "T2"⟩]).2
      "mid2" (some "5", MVal.str "T2") (by decide)⟩

theorem charListLt_self (l : List Char) : charListLt l l = false := by
  induction l with
  | nil => rfl
  | cons a as ih => simp [charListLt, lt_irrefl, ih]

theorem pyStrGe_refl (s : String) : pyStrGe s s = true := by
  simp [pyStrGe, pyStrLt, charListLt_self]

theorem runReconcile_all_skip (files : List SyncFile) :
    ∀ (inv : Inv) (appendOk : SyncFile → Bool),
      (∀ f ∈ files, ∃ u, u ≠ "" ∧ f.file_mtime ≠ "" ∧
          invGet inv f.message_id = some (some u, MVal.str f.file_mtime)) →
      runReconcile inv files appendOk = Except.ok (inv, []) := by
  induction files with
  | nil => intro inv ok _; rfl
  | cons f rest ih =>
    intro inv ok h
    obtain ⟨u, hu, hne, hget⟩ := h f (List.mem_cons_self _ _)
    have hne' : (f.file_mtime == "") = false := beq_eq_false_iff_ne.mpr hne
    have hpf : processFile inv f (ok f) = Except.ok (inv, []) := by
      simp [processFile, hget, hu, hne', pyStrGe_refl]
    simp only [runReconcile, hpf,
      ih inv ok (fun g hg => h g (List.mem_cons_of_mem _ hg))]
    rfl

theorem buildInventoryFrom_ops_all_truthy (rs : List FetchedRecord) :
    ∀ acc, (∀ r ∈ rs, truthyOS r.mtime = true) →
      (buildInventoryFrom acc rs).2 = acc.2 := by
  induction rs with
  | nil => intro acc _; rfl
  | cons r rest ih =>
    intro acc h
    have hr := h r (List.mem_cons_self _ _)
    simp only [buildInventoryFrom]
    rw [ih _ (fun g hg => h g (List.mem_cons_of_mem _ hg))]
    by_cases hmi : truthyOS r.message_id = true <;>
      simp [inventoryStep, hr, hmi]

/-- Claim C1: full-run idempotence.  When every remote record carries a
modification-time header (the state a previous run leaves behind) and
every transcript's Message-ID is in the inventory with a non-empty
handle and a stored modification time equal to its file modification
time, the whole run performs no remote mutation beyond the unconditional
startup expunge: every transcript is skipped, the inventory is left
unchanged, and no append, delete or further expunge is issued. -/
theorem full_run_idempotent (records : List FetchedRecord)
    (files : List SyncFile) (appendOk : SyncFile → Bool)
    (hrec : ∀ r ∈ records, truthyOS r.mtime = true)
    (hfiles : ∀ f ∈ files, ∃ u, u ≠ "" ∧ f.file_mtime ≠ "" ∧
        invGet (buildInventory records).1 f.message_id =
          some (some u, MVal.str f.file_mtime)) :
    mainRun records files appendOk =
      Except.ok ((buildInventory records).1, [RemoteOp.expunge]) := by
  have h1 : (buildInventory records).2 = [] :=
    buildInventoryFrom_ops_all_truthy records ([], []) hrec
  have h2 := runReconcile_all_skip files (buildInventory records).1 appendOk hfiles
  simp [mainRun, h2, h1]

/-- Witness for C1: a concrete re-run against the remote state of a
previous run issues only the startup expunge. -/
theorem full_run_idempotent_witness :
    mainRun [⟨"9", some "mid1", some "T1"⟩]
        [⟨"mid1", "T1", 5, "/logs/aim.acct/bob/x.html"⟩] (fun _ => true) =
      Except.ok ((buildInventory [⟨"9", some "mid1", some "T1"⟩]).1,
        [RemoteOp.expunge]) :=
  full_run_idempotent [⟨"9", some "mid1", some "T1"⟩]
    [⟨"mid1", "T1", 5, "/logs/aim.acct/bob/x.html"⟩] (fun _ => true)
    (by decide)
    (by
      intro f hf
      rw [List.mem_singleton] at hf
      subst hf
      exact ⟨"9", by decide, by decide, by decide⟩)

/-- Claim C2: staleness decision.  For a transcript whose Message-ID is
in the inventory with a non-null (truthy) handle and a non-empty stored
modification-time string, a stored time at least the file time yields a
bare skip with no remote operation, and a stored time strictly below the
file time yields exactly one delete (mark-deleted of that handle plus an
immediate expunge) followed by exactly one append — never a bare skip
and never an append without the preceding delete. -/
theorem staleness_decision (inv : Inv) (f : SyncFile) (u m : String)
    (hget : invGet inv f.message_id = some (some u, MVal.str m))
    (hu : u ≠ "") (hm : m ≠ "") :
    (∀ appendOk, pyStrGe m f.file_mtime = true →
        processFile inv f appendOk = Except.ok (inv, [])) ∧
    (pyStrLt m f.file_mtime = true →
        processFile inv f true =
          Except.ok (invSet inv f.message_id (none, MVal.dt f.timestamp),
            [RemoteOp.markDeleted u, RemoteOp.expunge,
             RemoteOp.append f.message_id])) := by
  have hm' : (m == "") = false := beq_eq_false_iff_ne.mpr hm
  constructor
  · intro ok hge
    simp [processFile, hget, hu, hm', hge]
  · intro hlt
    have hnge : pyStrGe m f.file_mtime = false := by
      simp [pyStrGe, hlt]
    simp [processFile, hget, hu, hm', hnge, storeStep]

/-- Witness for C2: with stored time `"B"`, file time `"A" ≤ "B"` is
skipped, and file time `"C" > "B"` produces exactly mark-delete,
expunge, append. -/
theorem staleness_decision_witness :
    processFile [("m1", (some "7", MVal.str "B"))] ⟨"m1", "A", 3, "/logs/a.html"⟩
        true = Except.ok ([("m1", (some "7", MVal.str "B"))], []) ∧
    processFile [("m1", (some "7", MVal.str "B"))] ⟨"m1", "C", 3, "/logs/a.html"⟩
        true =
      Except.ok (invSet [("m1", (some "7", MVal.str "B"))] "m1" (none, MVal.dt 3),
        [RemoteOp.markDeleted "7", RemoteOp.expunge, RemoteOp.append "m1"]) :=
  ⟨(staleness_decision [("m1", (some "7", MVal.str "B"))]
      ⟨"m1", "A", 3, "/logs/a.html"⟩ "7" "B" rfl (by decide) (by decide)).1
      true (by decide),
   (staleness_decision [("m1", (some "7", MVal.str "B"))]
      ⟨"m1", "C", 3, "/logs/a.html"⟩ "7" "B" rfl (by decide) (by decide)).2
      (by decide)⟩

/-- Claim C3 evaluated at its failing input: two descriptors of the same
run carrying the same Message-ID.  The first `Create` records
`(None, timestamp)` — the filename timestamp object, not the file
modification time — and because the reconciliation loop only skips on a
truthy handle, the second descriptor is appended a second time, with no
delete in between. -/
theorem duplicate_descriptor_reappended :
    runReconcile []
      [⟨"20140904154541-0400_bob@aol.com", "20140905120000-0400", 7,
        "/logs/aim/acct/bob/2014-09-04.154541-0400.html"⟩,
       ⟨"20140904154541-0400_bob@aol.com", "20140905120000-0400", 7,
        "/logs/aim/acct/bob/2014-09-04.154541-0400.txt"⟩]
      (fun _ => true) =
      Except.ok ([("20140904154541-0400_bob@aol.com", (none, MVal.dt 7))],
        [RemoteOp.append "20140904154541-0400_bob@aol.com",
         RemoteOp.append "20140904154541-0400_bob@aol.com"]) := by
  decide

/-- Claim C5 as stated is false: after a failed append the run does not
continue with the next transcript.  At this concrete input the append of
the first transcript fails (the oracle would let the second one
succeed), the failure is reported with the file path, and the run
terminates as an error instead of processing `/logs/b.html`. -/
theorem append_failure_not_continued :
    runReconcile []
      [⟨"mA", "T1", 0, "/logs/a.html"⟩, ⟨"mB", "T1", 0, "/logs/b.html"⟩]
      (fun f => f.file_name == "/logs/b.html") =
      Except.error (RunErr.storeFailed "/logs/a.html") := by
  decide

/-- Claim C5 amended: on both paths that issue an append — `Create`
(Message-ID absent from the inventory) and `Replace` (present under a
truthy handle with a stale stored modification time) — a failing append
is reported with the transcript's file path and re-raised, terminating
the run: whatever transcripts remain are not processed. -/
theorem append_failure_terminates (inv : Inv) (f : SyncFile)
    (rest : List SyncFile) (appendOk : SyncFile → Bool)
    (hfail : appendOk f = false) :
    (invGet inv f.message_id = none →
        runReconcile inv (f :: rest) appendOk =
          Except.error (RunErr.storeFailed f.file_name)) ∧
    (∀ u m, invGet inv f.message_id = some (some u, MVal.str m) → u ≠ "" →
        pyStrLt m f.file_mtime = true →
        runReconcile inv (f :: rest) appendOk =
          Except.error (RunErr.storeFailed f.file_name)) := by
  constructor
  · intro habsent
    simp [runReconcile, processFile, habsent, storeStep, hfail]
  · intro u m hget hu hlt
    have hnge : pyStrGe m f.file_mtime = false := by
      simp [pyStrGe, hlt]
    simp [runReconcile, processFile, hget, hu, hnge, storeStep, hfail]

/-- Witness for the amended C5: a failing append aborts the run with the
file path in the error, both on a concrete Create (empty inventory) and
on a concrete Replace (stale stored time under handle `"4"`). -/
theorem append_failure_terminates_witness :
    runReconcile [] [⟨"mA", "T", 0, "/logs/a.html"⟩] (fun _ => false) =
      Except.error (RunErr.storeFailed "/logs/a.html") ∧
    runReconcile [("mB", (some "4", MVal.str "T1"))]
        [⟨"mB", "T2", 0, "/logs/b.html"⟩] (fun _ => false) =
      Except.error (RunErr.storeFailed "/logs/b.html") :=
  ⟨(append_failure_terminates [] ⟨"mA", "T", 0, "/logs/a.html"⟩ []
      (fun _ => false) rfl).1 rfl,
   (append_failure_terminates [("mB", (some "4", MVal.str "T1"))]
      ⟨"mB", "T2", 0, "/logs/b.html"⟩ [] (fun _ => false) rfl).2
      "4" "T1" rfl (by decide) (by decide)⟩

/-- Claim C6 as stated is false: derivation does not try the three
formats in priority order for every filename.  For an `.xml` file whose
stem parses under format (2), the code only attempts the bracketed
format (1) and, on its parse error, fails for the file instead of
failing over to format (2). -/
theorem xml_no_failover_counterexample :
    get_timestamp "2014-09-04.154541-0400" ".xml"
        "/logs/jabber.acct/bob/2014-09-04.154541-0400.xml" (-300) =
      Except.error
        (TsErr.parseFailure "/logs/jabber.acct/bob/2014-09-04.154541-0400.xml") ∧
    parseOffset (stripTzAbbrev "2014-09-04.154541-0400") =
      some ⟨2014, 9, 4, 15, 45, 41, some (-240)⟩ := by
  constructor
  · decide
  · decide

/-- Claim C6 amended: derivation dispatches on the extension.  For
`.xml` files only the bracketed format (1) is tried on the last
space-separated field of the stem, and its parse error is fatal for the
file; for every other extension the stem with a trailing timezone
abbreviation stripped is parsed as format (2), failing over on parse
error to the naive format (3) localized to the configured timezone; when
the applicable formats fail, derivation fails with an error carrying the
file path rather than silently defaulting. -/
theorem timestamp_derivation_dispatch (root ext fname : String) (tz : Int) :
    (ext = ".xml" → ∀ d, parseBracketed (lastToken root) = some d →
        get_timestamp root ext fname tz = Except.ok d) ∧
    (ext = ".xml" → parseBracketed (lastToken root) = none →
        get_timestamp root ext fname tz =
          Except.error (TsErr.parseFailure fname)) ∧
    (ext ≠ ".xml" → ∀ d, parseOffset (stripTzAbbrev root) = some d →
        get_timestamp root ext fname tz = Except.ok d) ∧
    (ext ≠ ".xml" → parseOffset (stripTzAbbrev root) = none →
        ∀ d, parseNaive (stripTzAbbrev root) = some d →
          get_timestamp root ext fname tz = Except.ok (localize tz d)) ∧
    (ext ≠ ".xml" → parseOffset (stripTzAbbrev root) = none →
        parseNaive (stripTzAbbrev root) = none →
          get_timestamp root ext fname tz =
            Except.error (TsErr.parseFailure fname)) := by
  refine ⟨?_, ?_, ?_, ?_, ?_⟩
  · intro hx d hp
    simp [get_timestamp, hx, hp]
  · intro hx hp
    simp [get_timestamp, hx, hp]
  · intro hx d hp
    simp [get_timestamp, hx, hp]
  · intro hx hp d hq
    simp [get_timestamp, hx, hp, hq]
  · intro hx hp hq
    simp [get_timestamp, hx, hp, hq]

/-- Witness for the amended C6: all five branches at concrete inputs —
bracketed success and fatal bracketed failure for `.xml`, offset
success, naive-localized success and fatal failure for `.html`. -/
theorem timestamp_derivation_dispatch_witness :
    get_timestamp "bob@x.ext (2014-09-04T15.45.41-0400)" ".xml" "/a.xml" (-300) =
      Except.ok ⟨2014, 9, 4, 15, 45, 41, some (-240)⟩ ∧
    get_timestamp "junk" ".xml" "/b.xml" (-300) =
      Except.error (TsErr.parseFailure "/b.xml") ∧
    get_timestamp "2014-09-04.154541-0400EDT" ".html" "/c.html" (-300) =
      Except.ok ⟨2014, 9, 4, 15, 45, 41, some (-240)⟩ ∧
    get_timestamp "2014-09-04.154541" ".html" "/d.html" (-300) =
      Except.ok ⟨2014, 9, 4, 15, 45, 41, some (-300)⟩ ∧
    get_timestamp "2014-09-04" ".txt" "/e.txt" (-300) =
      Except.error (TsErr.parseFailure "/e.txt") :=
  ⟨(timestamp_derivation_dispatch "bob@x.ext (2014-09-04T15.45.41-0400)"
      ".xml" "/a.xml" (-300)).1 rfl _ (by decide),
   (timestamp_derivation_dispatch "junk" ".xml" "/b.xml" (-300)).2.1
      rfl (by decide),
   (timestamp_derivation_dispatch "2014-09-04.154541-0400EDT" ".html"
      "/c.html" (-300)).2.2.1 (by decide) _ (by decide),
   (timestamp_derivation_dispatch "2014-09-04.154541" ".html" "/d.html"
      (-300)).2.2.2.1 (by decide) (by decide)
      ⟨2014, 9, 4, 15, 45, 41, none⟩ (by decide),
   (timestamp_derivation_dispatch "2014-09-04" ".txt" "/e.txt"
      (-300)).2.2.2.2 (by decide) (by decide) (by decide)⟩

/-- Claim C7 evaluated at its failing input: a filename with no
parseable timestamp.  `LogFile.get_timestamp`'s docstring promises to
"go with the timestamp on the file descriptor" when the filename parse
fails, but the code re-raises the parse error instead — the filesystem
modification time is never consulted. -/
theorem unparseable_filename_raises :
    get_timestamp "chat_with_bob" ".txt"
        "/logs/msn/acct/bob/chat_with_bob.txt" (-300) =
      Except.error (TsErr.parseFailure "/logs/msn/acct/bob/chat_with_bob.txt") := by
  decide

end Chat2Imap
